import Mathlib

/-!
Verification of the Luhya language assistant core (`api/chat.py`,
class `RefinedLuhyaRAGSystem`) against its natural-language specification.

The Python code is shallowly embedded below.  Strings are modelled by
`String`/`List Char` (Python `str.lower`/`str.strip`/`in`/`split` are
reimplemented character-by-character), dictionaries preserving insertion
order by association lists, and the regular expressions of
`detect_query_intent` by a small backtracking matcher over an explicit
pattern AST that mirrors the exact pattern strings of the source.

Scores, which are Python floats in the source, are modelled as exact
fixed-point integers: every constant in the code is an exact decimal
(1.0, 0.98, 0.85, 0.82, 0.7, 0.67, length/quality scores in multiples of
0.1, boost factors 1.3, 1.2, 0.6), so we represent similarities in
hundredths (0.98 as 98), length/quality scores and boost factors in
tenths (1.3 as 13, a missing boost as the neutral factor 10), making
`final_score` an integer count of millionths.  Every comparison between
two final scores agrees with the comparison of the corresponding exact
real values, because it is the same quantity times the constant 10^6.
-/

/-! ## String primitives (Python `str` operations) -/

/-- Characters of a string. -/
def strL (s : String) : List Char := s.data

/-- String from characters. -/
def strOf (l : List Char) : String := ⟨l⟩

/-- Python `str.lower` on the character list (ASCII, which covers the data). -/
def lowerL (l : List Char) : List Char := l.map Char.toLower

/-- Python `str.strip` on a character list. -/
def trimL (l : List Char) : List Char :=
  ((l.dropWhile Char.isWhitespace).reverse.dropWhile Char.isWhitespace).reverse

/-- Python `str.lower` on `String`. -/
def lowerS (s : String) : String := strOf (lowerL (strL s))

/-- Python `str.strip` on `String`. -/
def trimS (s : String) : String := strOf (trimL (strL s))

/-- Boolean list-prefix test (needle is a prefix of hay). -/
def listIsPre : List Char → List Char → Bool
  | [], _ => true
  | _ :: _, [] => false
  | a :: as, b :: bs => a == b && listIsPre as bs

/-- Python substring test `needle in hay`. -/
def containsSub (needle : List Char) : List Char → Bool
  | [] => listIsPre needle []
  | c :: rest => listIsPre needle (c :: rest) || containsSub needle rest

/-- Python `str.split()` (split on whitespace runs, dropping empties);
`acc` is the reversed current word. -/
def splitWords : List Char → List Char → List String
  | [], acc => if acc = [] then [] else [strOf acc.reverse]
  | c :: rest, acc =>
    if Char.isWhitespace c then
      if acc = [] then splitWords rest []
      else strOf acc.reverse :: splitWords rest []
    else splitWords rest (c :: acc)

/-- Word character for the regex `\b` and `\w` (ASCII model of Python `\w`). -/
def isWordChar (c : Char) : Bool := c.isAlphanum || c == '_'

/-- Is position `p` of `s` a `\b` word boundary (exactly one neighbour is a
word character; positions outside the string count as non-word)? -/
def boundaryAt (s : List Char) (p : Nat) : Bool :=
  let prevW := if p = 0 then false else
    match s[p - 1]? with
    | some c => isWordChar c
    | none => false
  let curW :=
    match s[p]? with
    | some c => isWordChar c
    | none => false
  prevW != curW

/-- Python `re.search(rf'\b⟨term escaped⟩\b', s)` as a Boolean: the literal
`term` occurs at some position with word boundaries on both sides. -/
def wordBoundarySearch (term s : List Char) : Bool :=
  (List.range (s.length + 1)).any fun p =>
    listIsPre term (s.drop p) && boundaryAt s p && boundaryAt s (p + term.length)

/-! ## Data model (`__init__`, `process_dataset`) -/

/-- Raw dataset entry: a JSON object with optional string fields, as consumed
by `process_dataset` via `item.get(...)`. -/
structure Item where
  source_text : Option String
  target_text : Option String
  source_lang : Option String
  target_lang : Option String
  dialect : Option String
  domain : Option String
deriving DecidableEq

/-- A stored translation entry (the dict built at chat.py lines 130-140).
`length_score` is in tenths, `quality_score` in tenths (see the header). -/
structure Metadata where
  source_text : String
  target_text : String
  source_lang : String
  target_lang : String
  dialect : String
  domain : String
  id : String
  length_score : Int
  quality_score : Int
deriving DecidableEq

/-- The mutable system state of `RefinedLuhyaRAGSystem`; `isInit` models the
`is_initialized` flag, and the two indexes are insertion-ordered
dictionaries from key to list of appended positions. -/
structure RAGState where
  isInit : Bool
  documents : List String
  metadata : List Metadata
  dialect_index : List (String × List Nat)
  domain_index : List (String × List Nat)
deriving DecidableEq

/-- The state built by `__init__`. -/
def initState : RAGState := ⟨false, [], [], [], []⟩

/-- Python falsiness of `item.get(...)` for an optional string
(absent or empty). -/
def falsy (o : Option String) : Bool := o.getD "" == ""

/-- Python dict update `d.setdefault(k, []).append(v)` pattern of
chat.py lines 146-153, preserving insertion order of keys. -/
def indexAppend (k : String) (v : Nat) : List (String × List Nat) → List (String × List Nat)
  | [] => [(k, [v])]
  | (k2, vs) :: rest =>
    if k2 = k then (k2, vs ++ [v]) :: rest else (k2, vs) :: indexAppend k v rest

/-- One step of `re.sub(r'<[^>]+>', '', t)`: drop each leftmost occurrence of
`<`, one or more non-`>` characters, `>`; `fuel` bounds recursion depth and
`l.length` always suffices. -/
def stripTagsAux : Nat → List Char → List Char
  | 0, l => l
  | _ + 1, [] => []
  | fuel + 1, c :: rest =>
    if c = '<' then
      let pre := rest.takeWhile fun d => d != '>'
      let post := rest.dropWhile fun d => d != '>'
      if pre ≠ [] ∧ post ≠ [] then stripTagsAux fuel post.tail
      else c :: stripTagsAux fuel rest
    else c :: stripTagsAux fuel rest

/-- Python `re.sub(r'<[^>]+>', '', t)`. -/
def stripTags (l : List Char) : List Char := stripTagsAux l.length l

/-- `calculate_length_score` (chat.py lines 165-175), in tenths.  The float
comparison `(len s + len t) / 2 ≤ bound` is the exact integer comparison
`len s + len t ≤ 2 * bound`. -/
def calculate_length_score (source target : String) : Int :=
  let sum := source.length + target.length
  if sum ≤ 40 then 10
  else if sum ≤ 100 then 8
  else if sum ≤ 200 then 5
  else 1

/-- The punctuation characters of chat.py line 188. -/
def punct_chars : List Char := ['"', '(', ')', '[', ']', ';', ':']

/-- `calculate_quality_score` (chat.py lines 177-195), in tenths
(1.0 is 10, the adjustments +0.5, -0.3, +0.2, -0.2 are +5, -3, +2, -2,
and the final `max(0.1, score)` is `max 1 score`). -/
def calculate_quality_score (source target : String) (domain : String) : Int :=
  let s0 : Int := 10
  let s1 :=
    if domain ∈ ["dictionary", "translations", "greetings", "courtesy", "basic"] then s0 + 5
    else if domain = "bible" then s0 - 3
    else s0
  let s2 :=
    if ¬ (strL source ++ strL target).any (fun c => punct_chars.contains c) then s1 + 2
    else s1
  let s3 :=
    if (strL source ++ strL target).any Char.isDigit then s2 - 2
    else s2
  max 1 s3

/-- The loop body of `process_dataset` (chat.py lines 105-153) for the item at
input-enumeration position `idx`.  Note that the code appends `idx` — the
position in the *input* list `data`, not in the stored `metadata` list — to
both indexes. -/
def process_item (s : RAGState) (idx : Nat) (item : Item) : RAGState :=
  if falsy item.source_text || falsy item.target_text then s
  else
    let source_text := trimS (item.source_text.getD "")
    let target_text0 := trimS (item.target_text.getD "")
    if 100 < source_text.length ∨ 100 < target_text0.length then s
    else
      let hasTag := ["<en>", "<sw>", "<luy_"].any fun tag =>
        containsSub (strL tag) (lowerL (strL target_text0))
      let target_text := if hasTag then trimS (strOf (stripTags (strL target_text0))) else target_text0
      if hasTag ∧ (target_text = "" ∨ 100 < target_text.length) then s
      else
        let domain := lowerS (item.domain.getD "general")
        let dialect := item.dialect.getD "General"
        let content := source_text ++ " → " ++ target_text ++ " (" ++ dialect ++ ")"
        let md : Metadata :=
          ⟨source_text, target_text,
           item.source_lang.getD "en", item.target_lang.getD "luy",
           dialect, domain,
           "entry_" ++ toString idx,
           calculate_length_score source_text target_text,
           calculate_quality_score source_text target_text domain⟩
        ⟨s.isInit,
         s.documents ++ [content],
         s.metadata ++ [md],
         indexAppend dialect idx s.dialect_index,
         indexAppend domain idx s.domain_index⟩

/-- The `for idx, item in enumerate(data)` loop of `process_dataset`. -/
def processAll (s : RAGState) (idx : Nat) : List Item → RAGState
  | [] => s
  | item :: rest => processAll (process_item s idx item) (idx + 1) rest

/-- `process_dataset` (chat.py lines 97-163): reset the store, process every
item, then set `is_initialized` (the success path; the `except` branch is
unreachable in the model). -/
def process_dataset (s : RAGState) (data : List Item) : RAGState :=
  let s1 := processAll ⟨s.isInit, [], [], [], []⟩ 0 data
  ⟨true, s1.documents, s1.metadata, s1.dialect_index, s1.domain_index⟩

/-- The built-in fallback dataset of `load_fallback_data`
(chat.py lines 71-92). -/
def fallback_data : List Item :=
  [⟨some "good morning", some "bulamasawa", none, none, some "Bukusu", some "greetings"⟩,
   ⟨some "good morning", some "bushiangala", none, none, some "Maragoli", some "greetings"⟩,
   ⟨some "good morning", some "vushiere", none, none, some "Tsotso", some "greetings"⟩,
   ⟨some "good morning", some "bushere", none, none, some "Luwanga", some "greetings"⟩,
   ⟨some "thank you", some "nyasaye akurinde", none, none, some "Bukusu", some "courtesy"⟩,
   ⟨some "thank you", some "orio", none, none, some "Luwanga", some "courtesy"⟩,
   ⟨some "thank you", some "asante", none, none, some "Maragoli", some "courtesy"⟩,
   ⟨some "hello", some "mulembe", none, none, some "General", some "greetings"⟩,
   ⟨some "how are you", some "oli otia", none, none, some "Bukusu", some "greetings"⟩,
   ⟨some "how are you", some "uli wahi", none, none, some "Maragoli", some "greetings"⟩,
   ⟨some "water", some "machi", none, none, some "General", some "basic"⟩,
   ⟨some "food", some "shikulia", none, none, some "General", some "basic"⟩,
   ⟨some "house", some "ingu", none, none, some "General", some "basic"⟩]

/-- `load_dataset_from_env` (chat.py lines 50-67): the environment variable is
modelled as an optional decoded dataset; absence (or any decoding failure)
yields `false` without touching the state. -/
def load_from_env (envData : Option (List Item)) (s : RAGState) : Bool × RAGState :=
  match envData with
  | none => (false, s)
  | some d => (true, process_dataset s d)

/-- `load_dataset_from_url` (chat.py lines 36-48), with the fetched dataset
modelled as an optional value (timeout and errors give `none`). -/
def load_from_url (urlData : Option (List Item)) (s : RAGState) : Bool × RAGState :=
  match urlData with
  | none => (false, s)
  | some d => (true, process_dataset s d)

/-- `initialize` (chat.py lines 197-211): short-circuit when already
initialized, then try environment, URL, and the static fallback. (The
Python name `initialize` itself is not usable here.) -/
def initializeRag (envData urlData : Option (List Item)) (s : RAGState) : Bool × RAGState :=
  if s.isInit then (true, s)
  else
    let r1 := load_from_env envData s
    if r1.1 then (true, r1.2)
    else
      let r2 := load_from_url urlData r1.2
      if r2.1 then (true, r2.2)
      else (true, process_dataset r2.2 fallback_data)

/-! ## Regular-expression matching for `detect_query_intent`

The patterns of chat.py lines 239-261 use only: literal text, a
single-character class `["\']`, a captured one-or-more run `(...)`+ over a
character predicate (greedy or lazy), and the optional dialect group
`(?:(\w+) )?` (greedy).  `matchElemsF` is a backtracking matcher over that
AST, anchored at the start of its input; `searchPat` implements
`re.search` by trying successive start positions left to right.  `fuel`
only bounds the recursion over the element list, so `length + 1` always
suffices. -/

/-- One element of a compiled pattern. -/
inductive RElem where
  | lit (s : List Char)
  | cls (p : Char → Bool)
  | grp1 (p : Char → Bool) (lazy : Bool)
  | optGrp2

/-- Characters matched by the class `["\']`. -/
def isQuote (c : Char) : Bool := c == '"' || c.toNat == 39

/-- Characters matched by `[^"\']`. -/
def notQuote (c : Char) : Bool := !(isQuote c)

/-- Characters matched by `[^?]`. -/
def notQM (c : Char) : Bool := !(c == '?')

/-- Characters matched by `[a-zA-Z]`. -/
def alphaChar (c : Char) : Bool := c.isAlpha

/-- Anchored backtracking match returning the captures of group 1 and
group 2.  Greedy repetition tries the longest candidate first, lazy the
shortest; the optional group is tried before being skipped, as in Python. -/
def matchElemsF : Nat → List RElem → List Char → Option (Option (List Char) × Option (List Char))
  | 0, _, _ => none
  | _ + 1, [], _ => some (none, none)
  | fuel + 1, RElem.lit s :: es, input =>
    if listIsPre s input then matchElemsF fuel es (input.drop s.length) else none
  | fuel + 1, RElem.cls p :: es, input =>
    match input with
    | [] => none
    | c :: rest => if p c then matchElemsF fuel es rest else none
  | fuel + 1, RElem.grp1 p lazy :: es, input =>
    let run := input.takeWhile p
    let lens := if lazy then List.range' 1 run.length else (List.range' 1 run.length).reverse
    lens.findSome? fun n =>
      match matchElemsF fuel es (input.drop n) with
      | some (_, g2) => some (some (input.take n), g2)
      | none => none
  | fuel + 1, RElem.optGrp2 :: es, input =>
    let run := input.takeWhile isWordChar
    let attempt := ((List.range' 1 run.length).reverse).findSome? fun n =>
      if (input.drop n).head? == some ' ' then
        match matchElemsF fuel es (input.drop (n + 1)) with
        | some (g1, _) => some (g1, some (input.take n))
        | none => none
      else none
    match attempt with
    | some r => some r
    | none => matchElemsF fuel es input

/-- Python `re.search`: leftmost starting position wins. -/
def searchPat (p : List RElem) : List Char → Option (Option (List Char) × Option (List Char))
  | [] => matchElemsF (p.length + 1) p []
  | c :: rest =>
    match matchElemsF (p.length + 1) p (c :: rest) with
    | some r => some r
    | none => searchPat p rest

/-! ## `detect_query_intent` (chat.py lines 213-294) -/

/-- The ephemeral intent record. -/
structure IntentData where
  primary_intent : String
  key_terms : List String
  target_dialect : Option String
  query_type : String
deriving DecidableEq

/-- The ordered dialect substring table of chat.py lines 225-231
(Python dicts preserve insertion order). -/
def dialect_patterns : List (String × String) :=
  [("bukusu", "Bukusu"), ("maragoli", "Maragoli"), ("luwanga", "Luwanga"),
   ("tsotso", "Tsotso"), ("marachi", "Marachi")]

/-- The class element `["\']`. -/
def qcls : RElem := RElem.cls isQuote

/-- The quoted capture `(["\'])([^"\']+)(["\'])` middle part. -/
def qgrp : RElem := RElem.grp1 notQuote false

/-- The lazy unquoted capture `([^?]+?)`. -/
def lgrp : RElem := RElem.grp1 notQM true

/-- The translation patterns of chat.py lines 239-253, in source order,
each tagged with its intent string. -/
def translation_patterns : List (List RElem × String) :=
  [([RElem.lit (strL "how do you say "), qcls, qgrp, qcls, RElem.lit (strL " in "),
     RElem.optGrp2, RElem.lit (strL "luhya")], "translation_request"),
   ([RElem.lit (strL "what is "), qcls, qgrp, qcls, RElem.lit (strL " in "),
     RElem.optGrp2, RElem.lit (strL "luhya")], "translation_request"),
   ([RElem.lit (strL "how to say "), qcls, qgrp, qcls, RElem.lit (strL " in "),
     RElem.optGrp2, RElem.lit (strL "luhya")], "translation_request"),
   ([RElem.lit (strL "say "), qcls, qgrp, qcls, RElem.lit (strL " in "),
     RElem.optGrp2, RElem.lit (strL "luhya")], "translation_request"),
   ([RElem.lit (strL "translate "), qcls, qgrp, qcls, RElem.lit (strL " to "),
     RElem.optGrp2, RElem.lit (strL "luhya")], "translation_request"),
   ([qcls, qgrp, qcls, RElem.lit (strL " in "),
     RElem.optGrp2, RElem.lit (strL "luhya")], "translation_request"),
   ([RElem.lit (strL "how do you say "), lgrp, RElem.lit (strL " in "),
     RElem.optGrp2, RElem.lit (strL "luhya")], "translation_request"),
   ([RElem.lit (strL "what is "), lgrp, RElem.lit (strL " in "),
     RElem.optGrp2, RElem.lit (strL "luhya")], "translation_request"),
   ([RElem.lit (strL "how to say "), lgrp, RElem.lit (strL " in "),
     RElem.optGrp2, RElem.lit (strL "luhya")], "translation_request"),
   ([RElem.lit (strL "say "), lgrp, RElem.lit (strL " in "),
     RElem.optGrp2, RElem.lit (strL "luhya")], "translation_request"),
   ([RElem.lit (strL "translate "), lgrp, RElem.lit (strL " to "),
     RElem.optGrp2, RElem.lit (strL "luhya")], "translation_request")]

/-- The dictionary/meaning patterns of chat.py lines 256-261, in source
order. -/
def meaning_patterns : List (List RElem × String) :=
  [([RElem.lit (strL "what does "), lgrp, RElem.lit (strL " mean")], "dictionary_lookup"),
   ([RElem.lit (strL "meaning of "), RElem.grp1 notQM false], "dictionary_lookup"),
   ([RElem.lit (strL "define "), RElem.grp1 notQM false], "dictionary_lookup"),
   ([RElem.lit (strL "what is "), RElem.grp1 alphaChar false], "dictionary_lookup")]

/-- The first pattern of `pats` that matches `input`, with its captures and
its intent tag. -/
def firstPatMatch (pats : List (List RElem × String)) (input : List Char) :
    Option ((Option (List Char) × Option (List Char)) × String) :=
  pats.findSome? fun pt => (searchPat pt.1 input).map fun r => (r, pt.2)

/-- The lower-cased, stripped query (chat.py line 215). -/
def normQ (query : String) : List Char := trimL (lowerL (strL query))

/-- The stop-word set of chat.py line 290. -/
def stop_words : List String :=
  ["what", "is", "the", "how", "do", "you", "say", "in", "luhya", "mean", "means"]

/-- The keyword-extraction fallback of chat.py lines 289-292: split the
query, drop stop words and words of length at most 2, keep the first
two. -/
def fallback_terms (ql : List Char) : List String :=
  ((splitWords ql []).filter fun w => decide (w ∉ stop_words ∧ 2 < w.length)).take 2

/-- `detect_query_intent` (chat.py lines 213-294). -/
def detect_query_intent (query : String) : IntentData :=
  let ql := normQ query
  let td0 := (dialect_patterns.find? fun pd => containsSub (strL pd.1) ql).map Prod.snd
  let base : IntentData := ⟨"general", [], td0, "translation"⟩
  let afterPat : IntentData :=
    match firstPatMatch translation_patterns ql with
    | some (r, tag) =>
      let td1 :=
        match r.2 with
        | some d =>
          match dialect_patterns.find? fun pd => strL pd.1 = d with
          | some pd => some pd.2
          | none => td0
        | none => td0
      ⟨tag, [strOf (trimL (r.1.getD []))], td1, "translation"⟩
    | none =>
      match firstPatMatch meaning_patterns ql with
      | some (r, tag) => ⟨tag, [strOf (trimL (r.1.getD []))], td0, "meaning"⟩
      | none => base
  if afterPat.key_terms = [] then
    ⟨afterPat.primary_intent, fallback_terms ql, afterPat.target_dialect, afterPat.query_type⟩
  else afterPat

/-! ## `smart_search` (chat.py lines 296-384) -/

/-- A scored candidate (chat.py lines 359-364).  `similarity` is in
hundredths, `final_score` in millionths (see the header). -/
structure SearchResult where
  metadata : Metadata
  similarity : Int
  final_score : Int
  match_type : String
deriving DecidableEq

/-- The similarity chain of chat.py lines 318-342 for one key term and one
entry, on the already lower-cased source and target texts: similarities
1.0, 0.98, 0.85, 0.82, 0.7, 0.67 in hundredths, with the target-side
branches additionally requiring `query_type == 'meaning'`, and the
substring branches requiring a term longer than 3 characters. -/
def simOf (term : List Char) (qt : String) (source target : List Char) : Int × String :=
  if term = source then (100, "exact_source")
  else if term = target ∧ qt = "meaning" then (98, "exact_target")
  else if wordBoundarySearch term source then (85, "word_boundary_source")
  else if wordBoundarySearch term target ∧ qt = "meaning" then (82, "word_boundary_target")
  else if 3 < term.length ∧ containsSub term source then (70, "contains_source")
  else if 3 < term.length ∧ containsSub term target ∧ qt = "meaning" then (67, "contains_target")
  else (0, "")

/-- Scoring of one entry for one processed key term (chat.py lines 312-364):
`final_score = similarity * length_score * quality_score`, times 1.3 when
the requested dialect matches (neutral factor 10 otherwise, in tenths),
times 1.2 for the preferred domains or 0.6 for `bible` (neutral 10
otherwise); entries with similarity 0 produce no candidate. -/
def scoreEntry (term : List Char) (qt : String) (td : Option String) (m : Metadata) :
    Option SearchResult :=
  let st := simOf term qt (lowerL (strL m.source_text)) (lowerL (strL m.target_text))
  if 0 < st.1 then
    let base := st.1 * m.length_score * m.quality_score
    let p2 : Int × String :=
      match td with
      | some t =>
        if m.dialect = t then (base * 13, st.2 ++ "_dialect_boost_" ++ t)
        else (base * 10, st.2)
      | none => (base * 10, st.2)
    let fs :=
      if m.domain ∈ ["dictionary", "translations", "greetings", "courtesy"] then p2.1 * 12
      else if m.domain = "bible" then p2.1 * 6
      else p2.1 * 10
    some ⟨m, st.1, fs, p2.2⟩
  else none

/-- Everything `final_score` multiplies the similarity by: length score,
quality score, dialect factor and domain factor. -/
def multiplier (td : Option String) (m : Metadata) : Int :=
  m.length_score * m.quality_score *
    (match td with
     | some t => if m.dialect = t then 13 else 10
     | none => 10) *
    (if m.domain ∈ ["dictionary", "translations", "greetings", "courtesy"] then 12
     else if m.domain = "bible" then 6
     else 10)

/-- The candidate-gathering loop of chat.py lines 306-364: terms that are
empty or shorter than 2 characters are skipped; every stored entry is
scored against `term.lower().strip()`. -/
def gather_candidates (qt : String) (td : Option String) (meta : List Metadata) :
    List String → List SearchResult
  | [] => []
  | term :: rest =>
    (if term = "" ∨ term.length < 2 then []
     else meta.filterMap (scoreEntry (trimL (lowerL (strL term))) qt td)) ++
      gather_candidates qt td meta rest

/-- The candidate list produced by the scoring phase of `smart_search`. -/
def smart_search_candidates (state : RAGState) (intent : IntentData) : List SearchResult :=
  gather_candidates intent.query_type intent.target_dialect state.metadata intent.key_terms

/-- Candidate order used by `results.sort(key=..., reverse=True)`:
descending final score.  A stable sort with this relation (Mathlib's
insertion sort below) produces exactly Python's stable descending
order. -/
def rGE (a b : SearchResult) : Prop := b.final_score ≤ a.final_score

instance : DecidableRel rGE := fun a b =>
  inferInstanceAs (Decidable (b.final_score ≤ a.final_score))

instance : IsTotal SearchResult rGE := ⟨fun a b => le_total b.final_score a.final_score⟩

instance : IsTrans SearchResult rGE := ⟨fun _ _ _ h1 h2 => le_trans h2 h1⟩

/-- The deduplication key of chat.py line 375. -/
def resKey (r : SearchResult) : String × String × String :=
  (lowerS r.metadata.source_text, lowerS r.metadata.target_text, r.metadata.dialect)

/-- The deduplication/truncation loop of chat.py lines 370-384: walk the
sorted candidates, skip keys already seen, append new ones, and break as
soon as the number `cnt` of kept results has reached `max_results` —
checked only *after* appending, exactly as in the source. -/
def dedupTake (mr : Nat) : List SearchResult → List (String × String × String) → Nat →
    List SearchResult
  | [], _, _ => []
  | r :: rs, seen, cnt =>
    if resKey r ∈ seen then dedupTake mr rs seen cnt
    else if mr ≤ cnt + 1 then [r]
    else r :: dedupTake mr rs (resKey r :: seen) (cnt + 1)

/-- `smart_search` (chat.py lines 296-384).  The `query` argument is unused
by the source body as well. -/
def smart_search (state : RAGState) (_query : String) (intent : IntentData)
    (max_results : Nat) : List SearchResult :=
  if state.isInit = false then []
  else
    dedupTake max_results
      (List.insertionSort rGE (smart_search_candidates state intent)) [] 0

/-! ## Concrete datasets and states used in the theorems below -/

/-- A dataset whose first entry is invalid (missing `source_text`) and whose
second entry is valid. -/
def c1data : List Item :=
  [⟨none, some "x", none, none, none, none⟩,
   ⟨some "hello", some "mulembe", none, none, none, none⟩]

/-- An item whose `source_text` is whitespace-only (truthy in Python, but
empty after `strip`). -/
def itemBlank : Item := ⟨some "   ", some "hi", none, none, none, none⟩

/-- An item with an empty (falsy) `source_text`. -/
def itemMissing : Item := ⟨some "", some "x", none, none, none, none⟩

/-- A plain valid item with no optional fields. -/
def itemHelloGen : Item := ⟨some "hello", some "mulembe", none, none, none, none⟩

/-- The `Metadata` that `process_dataset` stores for `itemHelloGen` at input
position 0 (quality 1.2: base 1.0 plus 0.2 for no punctuation). -/
def mdHelloGen : Metadata :=
  ⟨"hello", "mulembe", "en", "luy", "General", "general", "entry_0", 10, 12⟩

/-- A short greetings entry whose source text is exactly the term `hello`. -/
def itemHello : Item := ⟨some "hello", some "mulembe", none, none, none, some "greetings"⟩

/-- A greetings entry that contains `hello` strictly inside its source
text. -/
def itemHelloThere : Item :=
  ⟨some "hello there", some "mulembe sana", none, none, none, some "greetings"⟩

/-- The store holding `itemHello` and `itemHelloThere`. -/
def stHello2 : RAGState := process_dataset initState [itemHello, itemHelloThere]

/-- An intent record whose sole key term is `hello`. -/
def intentHello : IntentData := ⟨"general", ["hello"], none, "translation"⟩

/-- The stored metadata of `itemHello` (quality 1.7 = 1.0 + 0.5 greetings
+ 0.2 no punctuation). -/
def mdHello : Metadata :=
  ⟨"hello", "mulembe", "en", "luy", "General", "greetings", "entry_0", 10, 17⟩

/-- The stored metadata of `itemHelloThere`. -/
def mdHelloThere : Metadata :=
  ⟨"hello there", "mulembe sana", "en", "luy", "General", "greetings", "entry_1", 10, 17⟩

/-- The candidate that `smart_search` builds for `mdHello` and term `hello`:
exact source match, final score 1.0 * 1.0 * 1.7 * 1.2 = 2.04. -/
def rHello : SearchResult := ⟨mdHello, 100, 2040000, "exact_source"⟩

/-- The candidate for `mdHelloThere` and term `hello`: word-boundary match,
final score 0.85 * 1.0 * 1.7 * 1.2 = 1.734. -/
def rHelloThere : SearchResult := ⟨mdHelloThere, 85, 1734000, "word_boundary_source"⟩

/-- An exact-match entry with a digit in its texts and the deprioritized
`bible` domain (quality 0.7, domain factor 0.6). -/
def itemWater4 : Item := ⟨some "water4", some "machi4", none, none, none, some "bible"⟩

/-- A `greetings` entry containing `water4` strictly inside its source text
with no word boundary around it (quality 1.5, domain factor 1.2). -/
def itemFreshwater : Item :=
  ⟨some "freshwater4y", some "machi", none, none, none, some "greetings"⟩

/-- The store holding `itemWater4` and `itemFreshwater`. -/
def stWater : RAGState := process_dataset initState [itemWater4, itemFreshwater]

/-- An intent record whose sole key term is `water4`. -/
def intentWater : IntentData := ⟨"general", ["water4"], none, "translation"⟩

/-- A store with a single entry whose target text is exactly `orio`. -/
def stOrio : RAGState :=
  process_dataset initState
    [⟨some "thank you", some "orio", none, none, some "Luwanga", some "courtesy"⟩]

/-- The stored metadata of the `stOrio` entry. -/
def mdOrio : Metadata :=
  ⟨"thank you", "orio", "en", "luy", "Luwanga", "courtesy", "entry_0", 10, 17⟩

/-- A store with two distinct entries carrying identical
`(source_text, target_text, dialect)` data and hence identical
deduplication keys but distinct ids. -/
def stDup : RAGState := process_dataset initState [itemHelloGen, itemHelloGen]

/-- An intent record repeating the same key term twice, so the scoring
phase produces every matching entry twice. -/
def intentDup : IntentData := ⟨"general", ["hello", "hello"], none, "translation"⟩

/-- The store holding only `itemHello`. -/
def stHello1 : RAGState := process_dataset initState [itemHello]

/-! ## Helper lemmas -/

/-- A successful `findSome?` comes from some list element. -/
theorem findSome?_mem {α β : Type} (f : α → Option β) :
    ∀ (l : List α) (b : β), l.findSome? f = some b → ∃ a ∈ l, f a = some b
  | [], _, h => by simp [List.findSome?] at h
  | a :: as, b, h => by
    rw [List.findSome?_cons] at h
    cases hfa : f a with
    | some v =>
      rw [hfa] at h
      exact ⟨a, List.mem_cons_self a as, hfa.trans h⟩
    | none =>
      rw [hfa] at h
      obtain ⟨x, hx, hfx⟩ := findSome?_mem f as b h
      exact ⟨x, List.mem_cons_of_mem a hx, hfx⟩

/-- Every translation pattern is tagged `translation_request`. -/
theorem trans_tags : ∀ pt ∈ translation_patterns, pt.2 = "translation_request" := by
  intro pt h
  simp only [translation_patterns, List.mem_cons, List.not_mem_nil, or_false] at h
  rcases h with rfl | rfl | rfl | rfl | rfl | rfl | rfl | rfl | rfl | rfl | rfl <;> rfl

/-- Every meaning pattern is tagged `dictionary_lookup`. -/
theorem meaning_tags : ∀ pt ∈ meaning_patterns, pt.2 = "dictionary_lookup" := by
  intro pt h
  simp only [meaning_patterns, List.mem_cons, List.not_mem_nil, or_false] at h
  rcases h with rfl | rfl | rfl | rfl <;> rfl

/-- The tag returned by `firstPatMatch` is the tag of some pattern of the
list. -/
theorem tag_from_pats (pats : List (List RElem × String)) (t : String)
    (hall : ∀ pt ∈ pats, pt.2 = t) (input : List Char)
    (r : Option (List Char) × Option (List Char)) (tag : String)
    (h : firstPatMatch pats input = some (r, tag)) : tag = t := by
  obtain ⟨pt, hmem, hpt⟩ := findSome?_mem _ _ _ h
  cases hs : searchPat pt.1 input with
  | none => rw [hs] at hpt; simp at hpt
  | some rr =>
    rw [hs] at hpt
    have h2 : pt.2 = tag := congrArg Prod.snd (Option.some.inj hpt)
    rw [← h2]
    exact hall pt hmem

/-- Every entry stored by `process_item` beyond the previous metadata has
source and target texts of length at most 100. -/
theorem process_item_mem (s : RAGState) (idx : Nat) (item : Item) (m : Metadata)
    (h : m ∈ (process_item s idx item).metadata) :
    m ∈ s.metadata ∨ (m.source_text.length ≤ 100 ∧ m.target_text.length ≤ 100) := by
  simp only [process_item] at h
  split_ifs at h with h1 h2 h3 h4 h5
  · exact Or.inl h
  · exact Or.inl h
  · exact Or.inl h
  · push_neg at h2
    rcases List.mem_append.mp h with hm | hm
    · exact Or.inl hm
    · rw [List.mem_singleton.mp hm]
      have h6 := not_and.mp h4 h3
      push_neg at h6
      exact Or.inr ⟨h2.1, h6.2⟩
  · exact Or.inl h
  · push_neg at h2
    rcases List.mem_append.mp h with hm | hm
    · exact Or.inl hm
    · rw [List.mem_singleton.mp hm]
      exact Or.inr ⟨h2.1, h2.2⟩

/-- Iterating `process_item` only adds entries with texts of length at
most 100. -/
theorem processAll_metadata_bound :
    ∀ (data : List Item) (s : RAGState) (idx : Nat) (m : Metadata),
      m ∈ (processAll s idx data).metadata →
      m ∈ s.metadata ∨ (m.source_text.length ≤ 100 ∧ m.target_text.length ≤ 100)
  | [], _, _, _, h => Or.inl h
  | item :: rest, s, idx, m, h => by
    rcases processAll_metadata_bound rest (process_item s idx item) (idx + 1) m h with h2 | h2
    · exact process_item_mem s idx item m h2
    · exact Or.inr h2

/-- The deduplication loop returns a sublist of its input. -/
theorem dedupTake_sublist : ∀ (mr : Nat) (l : List SearchResult)
    (seen : List (String × String × String)) (cnt : Nat),
    (dedupTake mr l seen cnt).Sublist l
  | _, [], _, _ => List.Sublist.refl []
  | mr, r :: rs, seen, cnt => by
    unfold dedupTake
    split_ifs with h1 h2
    · exact List.Sublist.cons r (dedupTake_sublist mr rs seen cnt)
    · exact List.Sublist.cons₂ r (List.nil_sublist rs)
    · exact List.Sublist.cons₂ r (dedupTake_sublist mr rs (resKey r :: seen) (cnt + 1))

/-- The deduplication loop keeps at most `mr - cnt` further results. -/
theorem dedupTake_length_le : ∀ (mr : Nat) (l : List SearchResult)
    (seen : List (String × String × String)) (cnt : Nat),
    cnt < mr → (dedupTake mr l seen cnt).length ≤ mr - cnt
  | _, [], _, _, _ => by simp [dedupTake]
  | mr, r :: rs, seen, cnt, h => by
    unfold dedupTake
    split_ifs with h1 h2
    · exact dedupTake_length_le mr rs seen cnt h
    · simp only [List.length_cons, List.length_nil]
      omega
    · have ih := dedupTake_length_le mr rs (resKey r :: seen) (cnt + 1) (by omega)
      simp only [List.length_cons]
      omega

/-- The deduplication loop emits pairwise-distinct keys, none of them
already seen. -/
theorem dedupTake_keys : ∀ (mr : Nat) (l : List SearchResult)
    (seen : List (String × String × String)) (cnt : Nat),
    ((dedupTake mr l seen cnt).map resKey).Nodup ∧
      ∀ r ∈ dedupTake mr l seen cnt, resKey r ∉ seen
  | _, [], _, _ => ⟨List.nodup_nil, by simp [dedupTake]⟩
  | mr, r :: rs, seen, cnt => by
    unfold dedupTake
    split_ifs with h1 h2
    · exact dedupTake_keys mr rs seen cnt
    · refine ⟨List.nodup_singleton _, ?_⟩
      intro x hx
      rw [List.mem_singleton.mp hx]
      exact h1
    · obtain ⟨ih1, ih2⟩ := dedupTake_keys mr rs (resKey r :: seen) (cnt + 1)
      constructor
      · simp only [List.map_cons, List.nodup_cons]
        refine ⟨?_, ih1⟩
        intro hmem
        obtain ⟨x, hx, hkx⟩ := List.mem_map.mp hmem
        exact (ih2 x hx) (by rw [hkx]; exact List.mem_cons_self _ _)
      · intro x hx
        rcases List.mem_cons.mp hx with rfl | hx2
        · exact h1
        · intro hxs
          exact (ih2 x hx2) (List.mem_cons_of_mem _ hxs)

/-- The output of `smart_search` is sorted by descending final score. -/
theorem smart_search_pairwise (state : RAGState) (query : String)
    (intent : IntentData) (mr : Nat) :
    List.Pairwise rGE (smart_search state query intent mr) := by
  unfold smart_search
  split_ifs
  · exact List.Pairwise.nil
  · exact List.Pairwise.sublist (dedupTake_sublist _ _ _ _)
      (List.sorted_insertionSort rGE _)

/-- Terms that are all empty or shorter than two characters produce no
candidates. -/
theorem gather_candidates_nil (qt : String) (td : Option String) (meta : List Metadata) :
    ∀ (terms : List String), (∀ t ∈ terms, t = "" ∨ t.length < 2) →
      gather_candidates qt td meta terms = []
  | [], _ => rfl
  | term :: rest, h => by
    unfold gather_candidates
    rw [if_pos (h term (List.mem_cons_self term rest)), List.nil_append]
    exact gather_candidates_nil qt td meta rest fun t ht => h t (List.mem_cons_of_mem term ht)

/-- An exact source match has similarity 1.0 (100 in hundredths). -/
theorem simOf_exact (term : List Char) (qt : String) (source target : List Char)
    (h : term = source) : (simOf term qt source target).1 = 100 := by
  unfold simOf
  rw [if_pos h]

/-- Any match that is not an exact source match has similarity at most 0.98
(98 in hundredths). -/
theorem simOf_le_of_ne (term : List Char) (qt : String) (source target : List Char)
    (h : term ≠ source) : (simOf term qt source target).1 ≤ 98 := by
  unfold simOf
  split_ifs with h1 h2 h3 h4 h5 h6
  · exact absurd h1 h
  all_goals norm_num

/-- A produced candidate scores its entry's similarity times the entry's
length/quality/dialect/domain multiplier. -/
theorem scoreEntry_some (term : List Char) (qt : String) (td : Option String) (m : Metadata)
    (r : SearchResult) (h : scoreEntry term qt td m = some r) :
    r.metadata = m ∧
      r.similarity = (simOf term qt (lowerL (strL m.source_text)) (lowerL (strL m.target_text))).1 ∧
      r.final_score = r.similarity * multiplier td m := by
  simp only [scoreEntry] at h
  by_cases hpos : 0 < (simOf term qt (lowerL (strL m.source_text)) (lowerL (strL m.target_text))).1
  · rw [if_pos hpos] at h
    rcases Option.some.inj h with rfl
    refine ⟨rfl, rfl, ?_⟩
    simp only [multiplier]
    rcases td with _ | t
    · simp only []
      split_ifs <;> ring
    · by_cases hd : m.dialect = t
      · simp only [hd, if_pos rfl]
        split_ifs <;> ring
      · simp only [if_neg hd]
        split_ifs <;> ring
  · rw [if_neg hpos] at h
    exact absurd h (by simp)

/-! ## Claim theorems -/

/-- C1: the spec demands that the dialect and domain indexes list each stored
entry's position in the stored metadata list exactly once, every listed
position being below the stored entry count.  The code instead appends the
*input-dataset* enumeration index: on a dataset whose first entry is invalid
and whose second is valid, one entry is stored (so 0 is the only valid
position) yet both indexes list position 1 — the claim is right and the code
wrong. -/
theorem c1_index_out_of_range :
    (process_dataset initState c1data).metadata.length = 1 ∧
      (process_dataset initState c1data).dialect_index = [("General", [1])] ∧
      (process_dataset initState c1data).domain_index = [("general", [1])] := by
  decide

/-- C2 counterexample: the claim says every stored entry has a non-empty
trimmed `source_text`, but a whitespace-only `source_text` passes the Python
truthiness check and is stored as the empty string after stripping. -/
theorem c2_counterexample :
    (process_dataset initState [itemBlank]).metadata.map Metadata.source_text = [""] := by
  decide

/-- C2 amended: every stored entry has trimmed source and target texts of
length at most 100, and an item whose raw `source_text` or `target_text` is
missing or empty is never stored; however a whitespace-only raw text is
stored as an empty trimmed string. -/
theorem c2_amended :
    (∀ (s : RAGState) (data : List Item) (m : Metadata),
        m ∈ (process_dataset s data).metadata →
        m.source_text.length ≤ 100 ∧ m.target_text.length ≤ 100) ∧
      (∀ (s : RAGState) (idx : Nat) (item : Item),
        (falsy item.source_text || falsy item.target_text) = true →
        process_item s idx item = s) := by
  constructor
  · intro s data m hm
    simp only [process_dataset] at hm
    rcases processAll_metadata_bound data ⟨s.isInit, [], [], [], []⟩ 0 m hm with h | h
    · exact absurd h (List.not_mem_nil m)
    · exact h
  · intro s idx item h
    simp [process_item, h]

/-- C2 witness: the amended claim applied to a concrete valid item and to a
concrete item with empty source text. -/
theorem c2_amended_witness :
    (mdHelloGen.source_text.length ≤ 100 ∧ mdHelloGen.target_text.length ≤ 100) ∧
      process_item initState 0 itemMissing = initState :=
  ⟨c2_amended.1 initState [itemHelloGen] mdHelloGen (by decide),
   c2_amended.2 initState 0 itemMissing (by decide)⟩

/-- C3 counterexample: the claim says an exact source match always outranks a
proper-substring match, but the quality/length/domain multipliers can invert
that: `water4` matches the `bible` entry `water4` exactly (final score 0.42)
and is merely a substring of the `greetings` entry `freshwater4y` (final
score 1.26), and `smart_search` ranks the substring entry first. -/
theorem c3_counterexample :
    (smart_search stWater "water4" intentWater 10).map (fun r => r.metadata.source_text) =
      ["freshwater4y", "water4"] := by
  decide

/-- C3 amended: when both entries carry the same combined
length/quality/dialect/domain multiplier (and it is positive), an entry whose
lower-cased source text equals the term is ranked strictly before any entry
that merely contains the term strictly inside its lower-cased source text,
wherever both appear in the list returned by `smart_search`. -/
theorem c3_amended (state : RAGState) (query : String) (intent : IntentData) (mr : Nat)
    (term : List Char) (A B : Metadata) (rA rB : SearchResult) (iA iB : Nat)
    (hA : scoreEntry term intent.query_type intent.target_dialect A = some rA)
    (hB : scoreEntry term intent.query_type intent.target_dialect B = some rB)
    (hexact : lowerL (strL A.source_text) = term)
    (hcontains : containsSub term (lowerL (strL B.source_text)) = true)
    (hproper : lowerL (strL B.source_text) ≠ term)
    (hmul : multiplier intent.target_dialect A = multiplier intent.target_dialect B)
    (hpos : 0 < multiplier intent.target_dialect A)
    (hiA : iA < (smart_search state query intent mr).length)
    (hiB : iB < (smart_search state query intent mr).length)
    (hgA : (smart_search state query intent mr).get ⟨iA, hiA⟩ = rA)
    (hgB : (smart_search state query intent mr).get ⟨iB, hiB⟩ = rB) :
    iA < iB := by
  obtain ⟨hmA, hsA, hfA⟩ := scoreEntry_some _ _ _ _ _ hA
  obtain ⟨hmB, hsB, hfB⟩ := scoreEntry_some _ _ _ _ _ hB
  have hsimA : rA.similarity = 100 := by
    rw [hsA]
    exact simOf_exact term _ _ _ hexact.symm
  have hsimB : rB.similarity ≤ 98 := by
    rw [hsB]
    exact simOf_le_of_ne term _ _ _ fun hc => hproper hc.symm
  have hlt : rB.final_score < rA.final_score := by
    rw [hfA, hfB, hsimA, ← hmul]
    calc rB.similarity * multiplier intent.target_dialect A
        ≤ 98 * multiplier intent.target_dialect A :=
          mul_le_mul_of_nonneg_right hsimB (le_of_lt hpos)
      _ < 100 * multiplier intent.target_dialect A :=
          mul_lt_mul_of_pos_right (by norm_num) hpos
  have hpw := smart_search_pairwise state query intent mr
  by_contra hnot
  push_neg at hnot
  rcases Nat.lt_or_ge iB iA with hlt2 | hge2
  · have hp := List.pairwise_iff_get.mp hpw ⟨iB, hiB⟩ ⟨iA, hiA⟩ hlt2
    rw [hgA, hgB] at hp
    exact absurd hp (not_le.mpr hlt)
  · have heq : rA = rB := by
      have hAB : iA = iB := le_antisymm hge2 hnot
      subst hAB
      exact hgA.symm.trans hgB
    rw [heq] at hlt
    exact lt_irrefl _ hlt

/-- C3 witness: in the two-entry `greetings` store, the exact match `hello`
(position 0) is ranked strictly before the word-boundary containment
`hello there` (position 1). -/
theorem c3_amended_witness : (0 : Nat) < 1 :=
  c3_amended stHello2 "hello" intentHello 10 (strL "hello") mdHello mdHelloThere
    rHello rHelloThere 0 1 (by decide) (by decide) (by decide) (by decide) (by decide)
    (by decide) (by decide) (by decide) (by decide) (by decide) (by decide)

/-- C4 counterexample: the claim says an exact target-text match receives a
positive similarity for every query regardless of query type, but with
`query_type = translation` the target-side branches are skipped entirely:
searching `orio` against the entry `thank you → orio` returns nothing. -/
theorem c4_counterexample :
    smart_search stOrio "orio" ⟨"general", ["orio"], none, "translation"⟩ 10 = [] := by
  decide

/-- C4 amended: an exact full-string match on the target text receives
similarity 0.98 (positive, slightly below the source-exact 1.0) — but only
when the detected `query_type` is `meaning`; the source code gates every
target-side branch on that query type. -/
theorem c4_amended (term : List Char) (td : Option String) (m : Metadata)
    (h1 : lowerL (strL m.target_text) = term)
    (h2 : lowerL (strL m.source_text) ≠ term) :
    ∃ r, scoreEntry term "meaning" td m = some r ∧ r.similarity = 98 ∧
      0 < r.similarity ∧ r.similarity < 100 := by
  have hsim : simOf term "meaning" (lowerL (strL m.source_text)) (lowerL (strL m.target_text)) =
      (98, "exact_target") := by
    unfold simOf
    rw [if_neg fun hc => h2 hc.symm, if_pos ⟨h1.symm, rfl⟩]
  cases hs : scoreEntry term "meaning" td m with
  | none =>
    exfalso
    simp only [scoreEntry, hsim] at hs
    norm_num at hs
    exact Option.noConfusion hs
  | some r =>
    obtain ⟨hm, hsimr, hf⟩ := scoreEntry_some _ _ _ _ _ hs
    rw [hsim] at hsimr
    exact ⟨r, rfl, hsimr, by rw [hsimr]; norm_num, by rw [hsimr]; norm_num⟩

/-- C4 witness: the amended claim applied to the `thank you → orio` entry
with a `meaning` query. -/
theorem c4_amended_witness :
    ∃ r, scoreEntry (strL "orio") "meaning" none mdOrio = some r ∧ r.similarity = 98 ∧
      0 < r.similarity ∧ r.similarity < 100 :=
  c4_amended (strL "orio") none mdOrio (by decide) (by decide)

/-- C5 counterexample: the claim allows any non-negative `max_results`, but
with `max_results = 0` the deduplication loop appends the first unique
candidate before checking the bound, so one result is returned. -/
theorem c5_counterexample :
    (smart_search stHello1 "hello" intentHello 0).length = 1 := by
  decide

/-- C5 amended: for every positive `max_results` the list returned by
`smart_search` has length at most `max_results` (the claim fails only at
`max_results = 0`). -/
theorem c5_amended (state : RAGState) (query : String) (intent : IntentData)
    (max_results : Nat) (h : 1 ≤ max_results) :
    (smart_search state query intent max_results).length ≤ max_results := by
  unfold smart_search
  split_ifs
  · simp
  · have h2 := dedupTake_length_le max_results
      (List.insertionSort rGE (smart_search_candidates state intent)) [] 0 (by omega)
    omega

/-- C5 witness: the amended bound at `max_results = 10` on a concrete
store. -/
theorem c5_amended_witness :
    (smart_search stHello1 "hello" intentHello 10).length ≤ 10 :=
  c5_amended stHello1 "hello" intentHello 10 (by decide)

/-- C6 counterexample: the claim says an entry id produced more than once by
the scoring phase appears exactly once in the output, but deduplication is
by the `(source_text, target_text, dialect)` tuple: with two distinct stored
entries carrying identical texts and a repeated key term, id `entry_1` is
produced twice by the scoring phase yet appears zero times in the output. -/
theorem c6_counterexample :
    (smart_search_candidates stDup intentDup).countP
        (fun r => r.metadata.id == "entry_1") = 2 ∧
      (smart_search stDup "hello hello" intentDup 10).countP
        (fun r => r.metadata.id == "entry_1") = 0 := by
  decide

/-- C6 amended: the list returned by `smart_search` contains each
deduplication identity — the `(source_text.lower, target_text.lower,
dialect)` tuple, which is the identity the code actually uses — at most
once; a repeated id can appear zero times when an earlier-ranked distinct
entry shares its tuple or the list is truncated. -/
theorem c6_amended (state : RAGState) (query : String) (intent : IntentData)
    (max_results : Nat) :
    ((smart_search state query intent max_results).map resKey).Nodup := by
  unfold smart_search
  split_ifs
  · simp
  · exact (dedupTake_keys max_results _ [] 0).1

/-- C7: `initialize()` is idempotent — once `is_initialized` is set, calling
it again returns `True`, consults neither the environment nor the URL data
source (the result does not depend on them), and leaves the state, hence
the stored entries, their count and both indexes, unchanged. -/
theorem c7_init_idempotent (envData urlData : Option (List Item)) (s : RAGState)
    (h : s.isInit = true) : initializeRag envData urlData s = (true, s) := by
  unfold initializeRag
  rw [h]
  simp

/-- C7 witness: re-initializing an already-initialized store is the
identity. -/
theorem c7_init_idempotent_witness :
    initializeRag none none (process_dataset initState []) =
      (true, process_dataset initState []) :=
  c7_init_idempotent none none (process_dataset initState []) (by decide)

/-- C8: on the query `how do you say thank you in luhya` the intent
classifier produces `primary_intent = translation_request` and
`key_terms = ["thank you"]`. -/
theorem c8_thank_you_intent :
    (detect_query_intent "how do you say thank you in luhya").primary_intent =
        "translation_request" ∧
      (detect_query_intent "how do you say thank you in luhya").key_terms =
        ["thank you"] := by
  decide

/-- C9: `detect_query_intent` is total and always yields a primary intent
among `general`, `translation_request` and `dictionary_lookup`; when no
translation pattern and no meaning pattern matches the lower-cased query,
the intent is the default `general` and the key terms fall back to the
stop-word-filtered tokens of the query. -/
theorem c9_intent_total (query : String) :
    (detect_query_intent query).primary_intent ∈
        (["general", "translation_request", "dictionary_lookup"] : List String) ∧
      (firstPatMatch translation_patterns (normQ query) = none →
        firstPatMatch meaning_patterns (normQ query) = none →
        (detect_query_intent query).primary_intent = "general" ∧
          (detect_query_intent query).key_terms = fallback_terms (normQ query)) := by
  constructor
  · simp only [detect_query_intent]
    cases hT : firstPatMatch translation_patterns (normQ query) with
    | some v =>
      obtain ⟨r, tag⟩ := v
      rw [tag_from_pats translation_patterns "translation_request" trans_tags _ r tag hT]
      simp
    | none =>
      cases hM : firstPatMatch meaning_patterns (normQ query) with
      | some v =>
        obtain ⟨r, tag⟩ := v
        rw [tag_from_pats meaning_patterns "dictionary_lookup" meaning_tags _ r tag hM]
        simp
      | none => simp
  · intro hT hM
    simp only [detect_query_intent, hT, hM]
    exact ⟨rfl, rfl⟩

/-- C9 witness: the nonsense query `zzzxqq123` matches no pattern, degrades
to the `general` intent and keeps its token as fallback key term. -/
theorem c9_intent_total_witness :
    ((detect_query_intent "zzzxqq123").primary_intent ∈
        (["general", "translation_request", "dictionary_lookup"] : List String)) ∧
      ((detect_query_intent "zzzxqq123").primary_intent = "general" ∧
        (detect_query_intent "zzzxqq123").key_terms = fallback_terms (normQ "zzzxqq123")) :=
  ⟨(c9_intent_total "zzzxqq123").1,
   (c9_intent_total "zzzxqq123").2 (by decide) (by decide)⟩

/-- C10: when every key term of the intent record is empty or shorter than
two characters, the scoring loop skips them all and `smart_search` returns
the empty list. -/
theorem c10_short_terms (state : RAGState) (query : String) (intent : IntentData)
    (max_results : Nat) (h : ∀ t ∈ intent.key_terms, t = "" ∨ t.length < 2) :
    smart_search state query intent max_results = [] := by
  unfold smart_search
  split_ifs
  · rfl
  · unfold smart_search_candidates
    rw [gather_candidates_nil intent.query_type intent.target_dialect state.metadata
      intent.key_terms h]
    rfl

/-- C10 witness: a one-letter and an empty key term produce no results even
over a populated store. -/
theorem c10_short_terms_witness :
    smart_search stHello1 "a" ⟨"general", ["a", ""], none, "translation"⟩ 10 = [] :=
  c10_short_terms stHello1 "a" ⟨"general", ["a", ""], none, "translation"⟩ 10 (by decide)
